import Mathlib

set_option maxHeartbeats 1000000

/-!  A shallow embedding of the sliding-tile board engine of this repository
(src/src/hooks/useGameBoard.ts and src/src/utils/common.ts), together with
theorems checking the specification's claims against it.  Randomness
(Math.random) is threaded explicitly: the Fisher-Yates draws of shuffle come
from a function `js`, the 2-vs-4 value draw from a function `high`, and
Date.now() is a parameter `now`.  JS numbers holding indices are modelled as
Nat, direction components as Int. -/

/-- Location interface from useGameBoard.ts: a row/column pair. -/
structure Location where
  r : Nat
  c : Nat
deriving DecidableEq, Repr

/-- Tile interface from useGameBoard.ts. -/
structure Tile where
  index : Nat
  id : String
  r : Nat
  c : Nat
  isNew : Bool
  isMerging : Bool
  canMerge : Bool
  value : Nat
deriving DecidableEq, Repr

/-- Cell is Tile or undefined. -/
abbrev Cell := Option Tile

/-- Grid is the Cell[][] matrix. -/
abbrev Grid := List (List Cell)

/-- nextTileIndex from common.ts: `_tileIndex++` returns the current counter
value and increments the stored counter. -/
def nextTileIndex (s : Nat) : Nat × Nat := (s, s + 1)

/-- resetTileIndex from common.ts: the counter restarts at zero. -/
def resetTileIndex : Nat := 0

/-- getId from common.ts: the id string is the allocation index, an
underscore, then the Date.now() timestamp. -/
def getId (ind : Nat) (now : Nat) : String :=
  toString ind ++ "_" ++ toString now

/-- clamp from common.ts: Math.max(Math.min(max, d), min). -/
def clamp (d lo hi : Int) : Int := max (min hi d) lo

/-- createIndexArray from common.ts. -/
def createIndexArray (len : Nat) : List Nat := List.range len

/-- listSwap is the destructuring swap inside shuffle's loop body. -/
def listSwap {α : Type} (l : List α) (i j : Nat) : List α :=
  match l.get? i, l.get? j with
  | some a, some b => (l.set i b).set j a
  | _, _ => l

/-- shuffleAux runs the Fisher-Yates loop of common.ts shuffle, from position
`i` down to 1; `js i` supplies the draw floor(Math.random() * (i + 1)),
reduced mod (i + 1), exactly the range [0, i] the real draw lies in. -/
def shuffleAux {α : Type} (js : Nat → Nat) : List α → Nat → List α
  | l, 0 => l
  | l, i + 1 => shuffleAux js (listSwap l (i + 1) (js (i + 1) % (i + 2))) i

/-- shuffle from common.ts. -/
def shuffle {α : Type} (js : Nat → Nat) (arr : List α) : List α :=
  shuffleAux js arr (arr.length - 1)

/-- Vector type from src/utils/types.ts: a direction with row/column
components. -/
structure Vector where
  r : Int
  c : Int
deriving DecidableEq, Repr

/-- Modelled from the spec: DIRECTION_MAP lives in src/utils/constants.ts,
which is not in the repository snapshot; the spec fixes the four cardinal
unit vectors as up (-1,0), down (1,0), left (0,-1), right (0,1). -/
def dirLeft : Vector := ⟨0, -1⟩

def dirRight : Vector := ⟨0, 1⟩

def dirUp : Vector := ⟨-1, 0⟩

def dirDown : Vector := ⟨1, 0⟩

/-- Direction list in the order canGameContinue builds it. -/
def dirs : List Vector := [dirLeft, dirRight, dirUp, dirDown]

/-- cellAt g r c models the JS read grid[r][c] (undefined off the end). -/
def cellAt (g : Grid) (r c : Nat) : Cell := (g.getD r []).getD c none

/-- gridSet models the JS write grid[r][c] = v (a no-op off the end, which
never happens on the in-range indices the engine uses). -/
def gridSet (g : Grid) (r c : Nat) (v : Cell) : Grid :=
  g.set r ((g.getD r []).set c v)

/-- createEmptyGrid from useGameBoard.ts (createRow with a constant
callback). -/
def createEmptyGrid (rows cols : Nat) : Grid :=
  List.replicate rows (List.replicate cols none)

/-- getEmptyCellsLocation from useGameBoard.ts. -/
def getEmptyCellsLocation (g : Grid) : List Location :=
  g.enum.flatMap (fun p =>
    p.2.enum.filterMap (fun q =>
      match q.2 with
      | none => some ⟨p.1, q.1⟩
      | some _ => none))

/-- SpawnEnv packages the ambient randomness the source reads globally. -/
structure SpawnEnv where
  js : Nat → Nat
  high : Nat → Bool
  now : Nat

/-- createNewTile from useGameBoard.ts; `high` models Math.random() > 0.99,
`s` the module-level _tileIndex counter. -/
def createNewTile (now : Nat) (high : Bool) (r c : Nat) (s : Nat) : Tile × Nat :=
  let p := nextTileIndex s
  ({ index := p.1, id := getId p.1 now, r := r, c := c,
     isNew := true, canMerge := false, isMerging := false,
     value := if high then 4 else 2 }, p.2)

/-- createTilesAt maps createNewTile over chosen locations, threading the
allocation counter. -/
def createTilesAt (env : SpawnEnv) : List Location → Nat → List Tile × Nat
  | [], s => ([], s)
  | loc :: rest, s =>
    let p := createNewTile env.now (env.high s) loc.r loc.c s
    let q := createTilesAt env rest p.2
    (p.1 :: q.1, q.2)

/-- createRandomTiles from useGameBoard.ts. -/
def createRandomTiles (env : SpawnEnv) (emptyCells : List Location) (amount : Nat)
    (s : Nat) : List Tile × Nat :=
  let tilesNumber := if emptyCells.length < amount then emptyCells.length else amount
  if tilesNumber = 0 then ([], s)
  else createTilesAt env ((shuffle env.js emptyCells).take tilesNumber) s

/-- createTraversalMap from useGameBoard.ts. -/
def createTraversalMap (rows cols : Nat) (dir : Vector) : List Nat × List Nat :=
  (if dir.r > 0 then (createIndexArray rows).reverse else createIndexArray rows,
   if dir.c > 0 then (createIndexArray cols).reverse else createIndexArray cols)

/-- traversalList is the row-major order in which the two nested forEach
loops of moveInDirection visit coordinates. -/
def traversalList (rows cols : Nat) (dir : Vector) : List (Nat × Nat) :=
  (createTraversalMap rows cols dir).1.flatMap (fun r =>
    (createTraversalMap rows cols dir).2.map (fun c => (r, c)))

/-- stepPos takes one clamped step from a position in direction dir:
clamp(x + dir, 0, bound - 1). -/
def stepPos (rows cols : Nat) (dir : Vector) (p : Nat × Nat) : Nat × Nat :=
  ((clamp ((p.1 : Int) + dir.r) 0 ((rows : Int) - 1)).toNat,
   (clamp ((p.2 : Int) + dir.c) 0 ((cols : Int) - 1)).toNat)

/-- slide runs the while loop of moveInDirection: walk step by step in dir
until blocked; on an occupied cell of equal value not yet flagged canMerge,
advance onto it.  The loop advances one cell per iteration, so fuel
rows + cols dominates its running length. -/
def slide (g : Grid) (rows cols : Nat) (dir : Vector) (v : Nat) :
    Nat → Nat × Nat → Nat × Nat → Nat × Nat
  | 0, curr, _ => curr
  | fuel + 1, curr, next =>
    if next = curr then curr
    else
      match cellAt g next.1 next.2 with
      | some t => if t.value = v ∧ t.canMerge = false then next else curr
      | none => slide g rows cols dir v fuel next (stepPos rows cols dir next)

/-- MoveState is the mutable state of moveInDirection's traversal: the grid
being rewritten, the tiles pushed so far, and the moveStack of moved tile
indices. -/
structure MoveState where
  grid : Grid
  tiles : List Tile
  moveStack : List Nat
deriving Repr

/-- moveStep is the body of moveInDirection's per-cell loop. -/
def moveStep (rows cols : Nat) (dir : Vector) (st : MoveState) (p : Nat × Nat) :
    MoveState :=
  match cellAt st.grid p.1 p.2 with
  | none => st
  | some tile =>
    let dest := slide st.grid rows cols dir tile.value (rows + cols) p
      (stepPos rows cols dir p)
    let currentTile := cellAt st.grid dest.1 dest.2
    if dest ≠ p then
      let updated : Tile :=
        { tile with
          r := dest.1, c := dest.2,
          canMerge := match currentTile with
                      | some ct => tile.value == ct.value
                      | none => false,
          isNew := false, isMerging := false }
      { grid := gridSet (gridSet st.grid dest.1 dest.2 (some updated)) p.1 p.2 none,
        tiles := st.tiles ++ [updated],
        moveStack := st.moveStack ++ [updated.index] }
    else
      match currentTile with
      | some ct =>
        { st with tiles := st.tiles ++ [{ ct with isNew := false, isMerging := false }] }
      | none => st

/-- moveInDirection from useGameBoard.ts. -/
def moveInDirection (g : Grid) (dir : Vector) : MoveState :=
  let rows := g.length
  let cols := (g.getD 0 []).length
  (traversalList rows cols dir).foldl (moveStep rows cols dir) ⟨g, [], []⟩

/-- mergeCell rewrites one occupied cell in mergeAndCreateNewTiles' map:
double on canMerge, mark isMerging, clear the flags. -/
def mergeCell (t : Tile) : Tile :=
  { t with
    value := if t.canMerge then 2 * t.value else t.value,
    isMerging := t.canMerge, canMerge := false, isNew := false }

/-- gridTilesList collects the occupied cells in row-major order (the order
the source pushes tiles while mapping the grid). -/
def gridTilesList (g : Grid) : List Tile :=
  g.flatMap (fun row => row.filterMap id)

/-- placeTiles models the forEach writing the spawned tiles into the grid. -/
def placeTiles (g : Grid) (ts : List Tile) : Grid :=
  ts.foldl (fun acc t => gridSet acc t.r t.c (some t)) g

/-- SettleOut is the record mergeAndCreateNewTiles returns. -/
structure SettleOut where
  grid : Grid
  tiles : List Tile
  score : Nat

/-- mergeAndCreateNewTiles from useGameBoard.ts: the single pass of the
source is rendered as one map for the new grid, one comprehension for the
pushed tile list, and one fold for the accumulated score, all over the same
cells in the same order; then the spawner runs with the settle-cycle count
rows * cols >= 24 ? 2 : 1. -/
def mergeAndCreateNewTiles (env : SpawnEnv) (g : Grid) (s : Nat) :
    SettleOut × Nat :=
  let rows := g.length
  let cols := (g.getD 0 []).length
  let newGrid : Grid := g.map (fun row => row.map (fun cell => cell.map mergeCell))
  let tiles := g.flatMap (fun row => (row.filterMap id).map mergeCell)
  let score := (gridTilesList g).foldl
    (fun acc t => if t.canMerge then acc + 2 * t.value else acc) 0
  let emptyCells := getEmptyCellsLocation newGrid
  let p := createRandomTiles env emptyCells (if 24 ≤ rows * cols then 2 else 1) s
  ({ grid := placeTiles newGrid p.1, tiles := tiles ++ p.1, score := score }, p.2)

/-- ResetOut is the record resetGameBoard returns. -/
structure ResetOut where
  grid : Grid
  tiles : List Tile

/-- resetGameBoard from useGameBoard.ts: reset the allocator, build an empty
grid, spawn rows * cols >= 24 ? 4 : 2 tiles into it. -/
def resetGameBoard (rows cols : Nat) (env : SpawnEnv) : ResetOut × Nat :=
  let s := resetTileIndex
  let grid := createEmptyGrid rows cols
  let emptyCells := getEmptyCellsLocation grid
  let p := createRandomTiles env emptyCells (if 24 ≤ rows * cols then 4 else 2) s
  ({ grid := placeTiles grid p.1, tiles := p.1 }, p.2)

/-- sortTiles from useGameBoard.ts: sort by the self-increment index. -/
def sortTiles (tiles : List Tile) : List Tile :=
  tiles.mergeSort (fun t1 t2 => t1.index ≤ t2.index)

/-- isWin from useGameBoard.ts. -/
def isWin (tiles : List Tile) : Bool :=
  tiles.any (fun t => t.value == 2048)

/-- neighborCheck is the body of canGameContinue's inner loop: the clamped
neighbor of the tile in direction d differs from the tile's own cell and is
empty or equal-valued. -/
def neighborCheck (g : Grid) (rows cols : Nat) (t : Tile) (d : Vector) : Bool :=
  let n := stepPos rows cols d (t.r, t.c)
  if n.1 ≠ t.r ∨ n.2 ≠ t.c then
    match cellAt g n.1 n.2 with
    | none => true
    | some u => u.value == t.value
  else false

/-- canGameContinue from useGameBoard.ts. -/
def canGameContinue (g : Grid) (tiles : List Tile) : Bool :=
  let totalRows := g.length
  let totalCols := (g.getD 0 []).length
  if tiles.length < totalRows * totalCols then true
  else
    tiles.any (fun t => dirs.any (fun d => neighborCheck g totalRows totalCols t d))

/-- GameStatus: modelled from the spec — useGameState.ts is not in the
repository snapshot; the spec lists the status values
running, win, lost, continue, restart. -/
inductive GameStatus where
  | running
  | win
  | lost
  | cont
  | restart
deriving DecidableEq, Repr

/-- statusCheck is the status effect of useGameBoard (lines 312-329): on
restart reset to running; from running with a 2048 tile go to win; from any
status other than lost (and other than restart, caught by the first branch)
go to lost when the board cannot continue; otherwise leave the status
alone (none). -/
def statusCheck (gs : GameStatus) (g : Grid) (tiles : List Tile) :
    Option GameStatus :=
  if gs = GameStatus.restart then some GameStatus.running
  else if gs = GameStatus.running ∧ isWin tiles = true then some GameStatus.win
  else if gs ≠ GameStatus.lost ∧ canGameContinue g tiles = false then
    some GameStatus.lost
  else none

/-- BoardState is the coordinator state of the useGameBoard hook: the grid
ref, the rendered tile list, the pendingStack ref, the moving flag, and the
externally supplied pause flag. -/
structure BoardState where
  grid : Grid
  tiles : List Tile
  pendingStack : List Nat
  moving : Bool
  pause : Bool
deriving DecidableEq, Repr

/-- onMove from useGameBoard.ts: gated on an empty pendingStack and pause
being off; runs the move engine, stores the grid and the moveStack, and only
when some tile moved flips moving and publishes the sorted tiles. -/
def onMove (dir : Vector) (st : BoardState) : BoardState :=
  if st.pendingStack.length = 0 ∧ st.pause = false then
    let res := moveInDirection st.grid dir
    let st' := { st with grid := res.grid, pendingStack := res.moveStack }
    if 0 < res.moveStack.length then
      { st' with moving := true, tiles := sortTiles res.tiles }
    else st'
  else st

/-- onMovePending from useGameBoard.ts: pop the pendingStack and recompute
moving from the remaining length. -/
def onMovePending (st : BoardState) : BoardState :=
  let ps := st.pendingStack.dropLast
  { st with pendingStack := ps, moving := decide (0 < ps.length) }

/-! Helper lemmas about lengths of the spawning pipeline. -/

theorem listSwap_length {α : Type} (l : List α) (i j : Nat) :
    (listSwap l i j).length = l.length := by
  unfold listSwap
  split <;> simp

theorem shuffleAux_length {α : Type} (js : Nat → Nat) (l : List α) (n : Nat) :
    (shuffleAux js l n).length = l.length := by
  induction n generalizing l with
  | zero => rfl
  | succ k ih => rw [shuffleAux, ih, listSwap_length]

theorem shuffle_length {α : Type} (js : Nat → Nat) (arr : List α) :
    (shuffle js arr).length = arr.length :=
  shuffleAux_length js arr (arr.length - 1)

theorem createTilesAt_length (env : SpawnEnv) (locs : List Location) (s : Nat) :
    (createTilesAt env locs s).1.length = locs.length := by
  induction locs generalizing s with
  | nil => rfl
  | cons a t ih => simp [createTilesAt, ih]

theorem createRandomTiles_length (env : SpawnEnv) (emptyCells : List Location)
    (amount s : Nat) :
    (createRandomTiles env emptyCells amount s).1.length
      = min amount emptyCells.length := by
  unfold createRandomTiles
  by_cases h : (if emptyCells.length < amount then emptyCells.length else amount) = 0
  · rw [if_pos h]
    show 0 = min amount emptyCells.length
    split at h <;> omega
  · rw [if_neg h]
    rw [createTilesAt_length, List.length_take, shuffle_length]
    split <;> omega

theorem enumFrom_filterMap_count (r k : Nat) (row : List Cell) :
    ((List.enumFrom k row).filterMap (fun q =>
      match q.2 with
      | none => some (Location.mk r q.1)
      | some _ => none)).length
      = row.countP (fun cell => cell.isNone) := by
  induction row generalizing k with
  | nil => rfl
  | cons a t ih =>
    cases a <;> simp [List.enumFrom, List.countP_cons, ih]

theorem getEmptyCellsLocation_aux (k : Nat) (g : Grid) :
    ((List.enumFrom k g).flatMap (fun p =>
      p.2.enum.filterMap (fun q =>
        match q.2 with
        | none => some (Location.mk p.1 q.1)
        | some _ => none))).length
      = (g.map (fun row => row.countP (fun cell => cell.isNone))).sum := by
  induction g generalizing k with
  | nil => rfl
  | cons row t ih =>
    simp only [List.enumFrom, List.flatMap_cons, List.length_append, List.map_cons,
      List.sum_cons, ih]
    congr 1
    exact enumFrom_filterMap_count k 0 row

theorem getEmptyCellsLocation_length (g : Grid) :
    (getEmptyCellsLocation g).length
      = (g.map (fun row => row.countP (fun cell => cell.isNone))).sum :=
  getEmptyCellsLocation_aux 0 g

theorem createEmptyGrid_empties (rows cols : Nat) :
    (getEmptyCellsLocation (createEmptyGrid rows cols)).length = rows * cols := by
  rw [getEmptyCellsLocation_length]
  unfold createEmptyGrid
  rw [List.map_replicate]
  have hrow : (List.replicate cols (none : Cell)).countP (fun cell => cell.isNone)
      = cols := by
    rw [List.countP_eq_length.mpr]
    · exact List.length_replicate cols none
    · intro a ha
      rw [List.eq_of_mem_replicate ha]
      rfl
  rw [hrow, List.sum_replicate, smul_eq_mul]

theorem mergedTiles_length (g : Grid) :
    (g.flatMap (fun row => (row.filterMap id).map mergeCell)).length
      = (gridTilesList g).length := by
  induction g with
  | nil => rfl
  | cons row t ih =>
    simp only [gridTilesList, List.flatMap_cons, List.length_append, List.length_map]
    rw [ih]
    rfl

theorem merged_empties_length (g : Grid) :
    (getEmptyCellsLocation (g.map (fun row => row.map (fun cell => cell.map mergeCell)))).length
      = (getEmptyCellsLocation g).length := by
  rw [getEmptyCellsLocation_length, getEmptyCellsLocation_length, List.map_map]
  congr 1
  apply List.map_congr_left
  intro row _
  show (row.map (fun cell => cell.map mergeCell)).countP (fun cell => cell.isNone)
      = row.countP (fun cell => cell.isNone)
  rw [List.countP_map]
  apply List.countP_congr
  intro cell _
  cases cell <;> rfl

/-! Concrete objects shared by witnesses and counterexamples. -/

/-- env0 is a concrete randomness environment: every Fisher-Yates draw is 0,
every value draw is low (tile value 2), Date.now() is 0. -/
def env0 : SpawnEnv := ⟨fun _ => 0, fun _ => false, 0⟩

def tA : Tile :=
  { index := 0, id := "0_7", r := 0, c := 0, isNew := false, isMerging := false,
    canMerge := false, value := 2 }

def tB : Tile :=
  { index := 1, id := "1_7", r := 0, c := 1, isNew := false, isMerging := false,
    canMerge := false, value := 4 }

/-- gStuck is a full 1x2 grid with unequal neighbor values: no move remains. -/
def gStuck : Grid := [[some tA, some tB]]

def stBusy : BoardState :=
  { grid := [[none]], tiles := [], pendingStack := [5], moving := true,
    pause := false }

def stIdle : BoardState :=
  { grid := [[none]], tiles := [], pendingStack := [], moving := false,
    pause := false }

/-- C5: tile identifiers are the allocation counter joined with the coarse
Date.now() timestamp (see getId), and they are not unique: allocating a tile,
resetting the counter (as resetGameBoard does on every board reset), and
allocating again under the same timestamp yields two distinct tiles carrying
the same identifier. -/
theorem C5_duplicate_id :
    (createNewTile 12345 false 0 0 resetTileIndex).1 ≠
        (createNewTile 12345 false 0 1 resetTileIndex).1 ∧
      (createNewTile 12345 false 0 0 resetTileIndex).1.id =
        (createNewTile 12345 false 0 1 resetTileIndex).1.id := by
  constructor
  · intro h
    exact absurd (congrArg Tile.c h) (by decide)
  · rfl

/-- C6: a directional input arriving while the pending stack is nonempty or
while pause is asserted is dropped, not queued: onMove returns the whole
coordinator state — grid, tile list, pending stack, moving flag — unchanged,
so nothing is ever replayed on the input's behalf. -/
theorem C6_input_dropped (dir : Vector) (st : BoardState)
    (h : st.pendingStack ≠ [] ∨ st.pause = true) :
    onMove dir st = st := by
  unfold onMove
  rw [if_neg]
  rcases h with h | h
  · intro hc
    exact h (List.length_eq_zero.mp hc.1)
  · intro hc
    rw [h] at hc
    exact absurd hc.2 (by decide)

theorem C6_input_dropped_witness : onMove dirLeft stBusy = stBusy :=
  C6_input_dropped dirLeft stBusy (Or.inl (by decide))

/-- C10: the pending count can never go negative: n completion signals leave
the pending stack at length max(0, old - n) (truncated Nat subtraction), and
a signal arriving on an already-empty stack leaves the stack empty and the
moving flag false. -/
theorem C10_pending_never_negative (st : BoardState) (n : Nat) :
    (onMovePending^[n] st).pendingStack.length = st.pendingStack.length - n ∧
      (st.pendingStack = [] →
        onMovePending st = { st with pendingStack := [], moving := false }) := by
  constructor
  · induction n generalizing st with
    | zero => simp
    | succ k ih =>
      rw [Function.iterate_succ_apply, ih (onMovePending st)]
      simp only [onMovePending, List.length_dropLast]
      omega
  · intro h
    simp [onMovePending, h]

theorem C10_pending_never_negative_witness :
    (onMovePending^[1] stIdle).pendingStack.length
        = stIdle.pendingStack.length - 1 ∧
      onMovePending stIdle = { stIdle with pendingStack := [], moving := false } :=
  ⟨(C10_pending_never_negative stIdle 1).1,
   (C10_pending_never_negative stIdle 1).2 rfl⟩

/-- C4 counterexample: the claim says the status moves to lost only from
running, but the loss branch is guarded only by gameStatus !== 'lost': on the
full stuck board gStuck the status check fires lost from win. -/
theorem C4_lost_from_win :
    statusCheck GameStatus.win gStuck [tA, tB] = some GameStatus.lost := by rfl

/-- C4 amended: win is entered only from running, and lost is entered from
any status other than lost and restart — in particular lost can also be
entered from win or continue, not only from running. -/
theorem C4_transitions (gs : GameStatus) (g : Grid) (tiles : List Tile) :
    (statusCheck gs g tiles = some GameStatus.win → gs = GameStatus.running) ∧
      (statusCheck gs g tiles = some GameStatus.lost →
        gs ≠ GameStatus.lost ∧ gs ≠ GameStatus.restart) := by
  constructor
  · intro h
    unfold statusCheck at h
    split at h
    · simp at h
    · split at h
      · rename_i hrun
        exact hrun.1
      · split at h
        · simp at h
        · simp at h
  · intro h
    unfold statusCheck at h
    split at h
    · simp at h
    · split at h
      · simp at h
      · split at h
        · rename_i hnr hnw hlost
          exact ⟨hlost.1, hnr⟩
        · simp at h

theorem C4_transitions_witness :
    GameStatus.win ≠ GameStatus.lost ∧ GameStatus.win ≠ GameStatus.restart :=
  (C4_transitions GameStatus.win gStuck [tA, tB]).2 (by rfl)

/-- C2 counterexample: the claim says a board of area < 24 spawns 4 tiles on
reset, but resetGameBoard requests rows * cols >= 24 ? 4 : 2, so the 4x4
board (area 16) spawns 2 tiles, not 4. -/
theorem C2_reset_4x4_not_4 : ((resetGameBoard 4 4 env0).1.tiles).length ≠ 4 := by
  decide

/-- C2 amended: the spawn count policy is the opposite pairing on reset —
when area >= 24 the reset spawns 4 tiles and each settle cycle spawns 2;
when area < 24 the reset spawns 2 and each settle cycle spawns 1; each count
is capped by the number of empty cells. -/
theorem C2_spawn_policy (rows cols : Nat) (env : SpawnEnv) (g : Grid) (s : Nat) :
    (resetGameBoard rows cols env).1.tiles.length
        = min (if 24 ≤ rows * cols then 4 else 2) (rows * cols) ∧
      (mergeAndCreateNewTiles env g s).1.tiles.length
        = (gridTilesList g).length
          + min (if 24 ≤ g.length * (g.getD 0 []).length then 2 else 1)
              (getEmptyCellsLocation g).length := by
  constructor
  · show (createRandomTiles env _ _ _).1.length = _
    rw [createRandomTiles_length, createEmptyGrid_empties]
  · show (_ ++ (createRandomTiles env _ _ _).1).length = _
    rw [List.length_append, createRandomTiles_length, mergedTiles_length,
      merged_empties_length]

/-! Score of a settle cycle (claim C8). -/

theorem foldl_merge_score (l : List Tile) (init : Nat) :
    l.foldl (fun acc t => if t.canMerge then acc + 2 * t.value else acc) init
      = init + ((l.filter (fun t => t.canMerge)).map (fun t => 2 * t.value)).sum := by
  induction l generalizing init with
  | nil => simp
  | cons a t ih =>
    rw [List.foldl_cons, ih, List.filter_cons]
    by_cases h : a.canMerge = true
    · simp [h]
      omega
    · simp [h]

/-- C8: the score delta of a settle cycle is exactly the sum of the doubled
values of the tiles whose canMerge flag is set, independent of the spawner's
randomness (so tiles without canMerge and newly spawned tiles contribute
nothing). -/
theorem C8_score_delta (env : SpawnEnv) (g : Grid) (s : Nat) :
    (mergeAndCreateNewTiles env g s).1.score
      = (((gridTilesList g).filter (fun t => t.canMerge)).map
          (fun t => 2 * t.value)).sum := by
  show (gridTilesList g).foldl _ 0 = _
  rw [foldl_merge_score, Nat.zero_add]

/-! Pressed boards produce no movement (claim C9). -/

/-- blockedB says the cell (r, c) holding tile t cannot take even one step in
direction dir: the clamped next cell is the cell itself, or it is occupied by
a tile of different value. -/
def blockedB (g : Grid) (rows cols : Nat) (dir : Vector) (r c : Nat) (t : Tile) :
    Bool :=
  let n := stepPos rows cols dir (r, c)
  decide (n = (r, c)) ||
    (match cellAt g n.1 n.2 with
     | some u => decide (u.value ≠ t.value)
     | none => false)

/-- allPressed says every occupied cell of the grid is blocked for dir. -/
def allPressed (g : Grid) (dir : Vector) : Bool :=
  (List.range g.length).all (fun r =>
    (List.range ((g.getD 0 []).length)).all (fun c =>
      match cellAt g r c with
      | none => true
      | some t => blockedB g g.length ((g.getD 0 []).length) dir r c t))

theorem allPressed_spec (g : Grid) (dir : Vector) (h : allPressed g dir = true) :
    ∀ r c t, r < g.length → c < (g.getD 0 []).length → cellAt g r c = some t →
      blockedB g g.length ((g.getD 0 []).length) dir r c t = true := by
  intro r c t hr hc hcell
  unfold allPressed at h
  rw [List.all_eq_true] at h
  have h1 := h r (List.mem_range.mpr hr)
  rw [List.all_eq_true] at h1
  have h2 := h1 c (List.mem_range.mpr hc)
  rw [hcell] at h2
  exact h2

theorem slide_self (g : Grid) (rows cols : Nat) (dir : Vector) (v : Nat)
    (fuel : Nat) (p : Nat × Nat) : slide g rows cols dir v fuel p p = p := by
  cases fuel <;> simp [slide]

theorem mem_traversal_bounds (rows cols : Nat) (dir : Vector) (p : Nat × Nat)
    (hp : p ∈ traversalList rows cols dir) : p.1 < rows ∧ p.2 < cols := by
  unfold traversalList createTraversalMap createIndexArray at hp
  dsimp only at hp
  rw [List.mem_flatMap] at hp
  obtain ⟨r, hr, hp⟩ := hp
  rw [List.mem_map] at hp
  obtain ⟨c, hc, rfl⟩ := hp
  refine ⟨?_, ?_⟩
  · split at hr
    · exact List.mem_range.mp (List.mem_reverse.mp hr)
    · exact List.mem_range.mp hr
  · split at hc
    · exact List.mem_range.mp (List.mem_reverse.mp hc)
    · exact List.mem_range.mp hc

theorem moveStep_pressed (rows cols : Nat) (dir : Vector) (st : MoveState)
    (hpress : ∀ r c t, r < rows → c < cols → cellAt st.grid r c = some t →
      blockedB st.grid rows cols dir r c t = true)
    (p : Nat × Nat) (hp1 : p.1 < rows) (hp2 : p.2 < cols) :
    (moveStep rows cols dir st p).grid = st.grid ∧
      (moveStep rows cols dir st p).moveStack = st.moveStack := by
  unfold moveStep
  cases hcell : cellAt st.grid p.1 p.2 with
  | none => exact ⟨rfl, rfl⟩
  | some tile =>
    have hb := hpress p.1 p.2 tile hp1 hp2 hcell
    unfold blockedB at hb
    rw [Bool.or_eq_true] at hb
    have hdest : slide st.grid rows cols dir tile.value (rows + cols) p
        (stepPos rows cols dir p) = p := by
      rcases hb with hself | hocc
      · rw [of_decide_eq_true hself]
        exact slide_self _ _ _ _ _ _ _
      · cases hcn : cellAt st.grid (stepPos rows cols dir p).1
            (stepPos rows cols dir p).2 with
        | none => rw [hcn] at hocc; exact absurd hocc (by simp)
        | some u =>
          rw [hcn] at hocc
          have hne : u.value ≠ tile.value := of_decide_eq_true hocc
          by_cases hnp : stepPos rows cols dir p = p
          · rw [hnp]
            exact slide_self _ _ _ _ _ _ _
          · cases hf : rows + cols with
            | zero => rfl
            | succ m =>
              simp only [slide, if_neg hnp, hcn]
              rw [if_neg]
              intro hcontra
              exact hne hcontra.1
    dsimp only
    rw [hdest]
    rw [if_neg (by simp)]
    rw [hcell]
    exact ⟨rfl, rfl⟩

theorem foldl_moveStep_pressed (rows cols : Nat) (dir : Vector)
    (l : List (Nat × Nat)) :
    ∀ st : MoveState,
      (∀ p ∈ l, p.1 < rows ∧ p.2 < cols) →
      (∀ r c t, r < rows → c < cols → cellAt st.grid r c = some t →
        blockedB st.grid rows cols dir r c t = true) →
      (l.foldl (moveStep rows cols dir) st).grid = st.grid ∧
        (l.foldl (moveStep rows cols dir) st).moveStack = st.moveStack := by
  induction l with
  | nil => intro st _ _; exact ⟨rfl, rfl⟩
  | cons p t ih =>
    intro st hmem hpress
    have hp := hmem p (List.mem_cons_self p t)
    have hstep := moveStep_pressed rows cols dir st hpress p hp.1 hp.2
    have hpress' : ∀ r c tt, r < rows → c < cols →
        cellAt (moveStep rows cols dir st p).grid r c = some tt →
        blockedB (moveStep rows cols dir st p).grid rows cols dir r c tt = true := by
      intro r c tt hr hc hcell
      rw [hstep.1] at hcell ⊢
      exact hpress r c tt hr hc hcell
    have ih' := ih (moveStep rows cols dir st p)
      (fun q hq => hmem q (List.mem_cons_of_mem _ hq)) hpress'
    rw [List.foldl_cons]
    exact ⟨ih'.1.trans hstep.1, ih'.2.trans hstep.2⟩

/-- C9: when every tile is already pressed against its target edge for dir
with no same-value merge possible (allPressed), the move engine changes
nothing: the grid is returned unchanged, the move list is empty, and an
onMove with that input leaves the whole coordinator state unchanged, so no
settle phase is seeded by it. -/
theorem C9_pressed_noop (dir : Vector) (st : BoardState)
    (hpress : allPressed st.grid dir = true)
    (hpend : st.pendingStack = []) (hpause : st.pause = false) :
    (moveInDirection st.grid dir).grid = st.grid ∧
      (moveInDirection st.grid dir).moveStack = [] ∧
      onMove dir st = st := by
  have hmain : (moveInDirection st.grid dir).grid = st.grid ∧
      (moveInDirection st.grid dir).moveStack = [] := by
    unfold moveInDirection
    exact foldl_moveStep_pressed _ _ dir _ ⟨st.grid, [], []⟩
      (fun p hp => mem_traversal_bounds _ _ dir p hp)
      (allPressed_spec st.grid dir hpress)
  refine ⟨hmain.1, hmain.2, ?_⟩
  unfold onMove
  rw [if_pos ⟨by rw [hpend]; rfl, hpause⟩]
  dsimp only
  rw [hmain.2, hmain.1]
  rw [if_neg (by simp)]
  rw [← hpend]

def stPressed : BoardState :=
  { grid := gStuck, tiles := [tA, tB], pendingStack := [], moving := false,
    pause := false }

theorem C9_pressed_noop_witness :
    (moveInDirection stPressed.grid dirLeft).grid = stPressed.grid ∧
      (moveInDirection stPressed.grid dirLeft).moveStack = [] ∧
      onMove dirLeft stPressed = stPressed :=
  C9_pressed_noop dirLeft stPressed (by decide) rfl rfl

/-! Terminal-state characterisation (claim C7). -/

/-- rectangularB: every row of the grid has length cols. -/
def rectangularB (g : Grid) (cols : Nat) : Bool :=
  g.all (fun row => row.length == cols)

/-- isFullP: every cell of the grid is occupied. -/
def isFullP (g : Grid) : Prop := ∀ row ∈ g, ∀ cell ∈ row, cell.isSome = true

/-- noNeighborMoveP renders the spec's loss side: no tile in the list has a
clamped axis-neighbor (distinct from its own cell, which excludes off-board
neighbors) that is empty or holds an equal value. -/
def noNeighborMoveP (g : Grid) (tiles : List Tile) : Prop :=
  ∀ t ∈ tiles, ∀ d ∈ dirs,
    ((stepPos g.length ((g.getD 0 []).length) d (t.r, t.c)).1 ≠ t.r ∨
        (stepPos g.length ((g.getD 0 []).length) d (t.r, t.c)).2 ≠ t.c) →
      cellAt g (stepPos g.length ((g.getD 0 []).length) d (t.r, t.c)).1
          (stepPos g.length ((g.getD 0 []).length) d (t.r, t.c)).2 ≠ none ∧
        ∀ u, cellAt g (stepPos g.length ((g.getD 0 []).length) d (t.r, t.c)).1
            (stepPos g.length ((g.getD 0 []).length) d (t.r, t.c)).2 = some u →
          u.value ≠ t.value

theorem length_filterMap_id (row : List Cell) :
    (row.filterMap id).length ≤ row.length ∧
      ((row.filterMap id).length = row.length ↔
        ∀ cell ∈ row, cell.isSome = true) := by
  induction row with
  | nil => simp
  | cons a t ih =>
    cases a with
    | none =>
      have hstep : (List.filterMap id (none :: t)).length
          = (List.filterMap id t).length := by
        simp [List.filterMap_cons]
      rw [hstep, List.length_cons]
      constructor
      · exact Nat.le_succ_of_le ih.1
      · constructor
        · intro h
          have := ih.1
          omega
        · intro h
          have := h none (List.mem_cons_self _ _)
          simp at this
    | some x =>
      have hstep : (List.filterMap id (some x :: t)).length
          = (List.filterMap id t).length + 1 := by
        simp [List.filterMap_cons]
      rw [hstep, List.length_cons]
      constructor
      · exact Nat.succ_le_succ ih.1
      · constructor
        · intro h
          intro cell hc
          rcases List.mem_cons.mp hc with rfl | hc
          · rfl
          · exact (ih.2.mp (by omega)) cell hc
        · intro h
          have := ih.2.mpr (fun cell hc => h cell (List.mem_cons_of_mem _ hc))
          omega

theorem gridTilesList_count (g : Grid) (cols : Nat)
    (hrect : ∀ row ∈ g, row.length = cols) :
    (gridTilesList g).length ≤ g.length * cols ∧
      ((gridTilesList g).length = g.length * cols ↔ isFullP g) := by
  induction g with
  | nil =>
    constructor
    · simp [gridTilesList]
    · constructor
      · intro _ row hrow
        simp at hrow
      · intro _
        simp [gridTilesList]
  | cons row t ih =>
    have hrow := hrect row (List.mem_cons_self _ _)
    have iht := ih (fun r hr => hrect r (List.mem_cons_of_mem _ hr))
    have hfm := length_filterMap_id row
    have hlen : (gridTilesList (row :: t)).length
        = (row.filterMap id).length + (gridTilesList t).length := by
      simp [gridTilesList]
    have hmul : (row :: t).length * cols = cols + t.length * cols := by
      rw [List.length_cons, Nat.succ_mul, Nat.add_comm]
    rw [hlen, hmul]
    have h1 : (row.filterMap id).length ≤ cols := hrow ▸ hfm.1
    constructor
    · exact Nat.add_le_add h1 iht.1
    · constructor
      · intro h
        have h2 := iht.1
        have e1 : (row.filterMap id).length = cols := by omega
        have e2 : (gridTilesList t).length = t.length * cols := by omega
        intro r hr
        rcases List.mem_cons.mp hr with rfl | hr
        · exact hfm.2.mp (by omega)
        · exact iht.2.mp e2 r hr
      · intro h
        have e1 : (row.filterMap id).length = row.length :=
          hfm.2.mpr (fun cell hc => h row (List.mem_cons_self _ _) cell hc)
        have e2 := iht.2.mpr (fun r hr => h r (List.mem_cons_of_mem _ hr))
        omega

theorem neighborCheck_false_iff (g : Grid) (rows cols : Nat) (t : Tile)
    (d : Vector) :
    neighborCheck g rows cols t d = false ↔
      (((stepPos rows cols d (t.r, t.c)).1 ≠ t.r ∨
          (stepPos rows cols d (t.r, t.c)).2 ≠ t.c) →
        cellAt g (stepPos rows cols d (t.r, t.c)).1
            (stepPos rows cols d (t.r, t.c)).2 ≠ none ∧
          ∀ u, cellAt g (stepPos rows cols d (t.r, t.c)).1
              (stepPos rows cols d (t.r, t.c)).2 = some u →
            u.value ≠ t.value) := by
  unfold neighborCheck
  dsimp only
  by_cases hn : ((stepPos rows cols d (t.r, t.c)).1 ≠ t.r ∨
      (stepPos rows cols d (t.r, t.c)).2 ≠ t.c)
  · rw [if_pos hn]
    cases hcell : cellAt g (stepPos rows cols d (t.r, t.c)).1
        (stepPos rows cols d (t.r, t.c)).2 with
    | none =>
      constructor
      · intro h
        exact Bool.noConfusion h
      · intro h
        exact absurd rfl (h hn).1
    | some u =>
      rw [beq_eq_false_iff_ne]
      constructor
      · intro hne _
        constructor
        · intro hx
          exact Option.noConfusion hx
        · intro v hv
          cases hv
          exact hne
      · intro h
        exact (h hn).2 u rfl
  · rw [if_neg hn]
    constructor
    · intro _ hcontra
      exact absurd hcontra hn
    · intro _
      rfl

theorem getD_mem_of_lt {α : Type} (l : List α) (d : α) (i : Nat)
    (h : i < l.length) : l.getD i d ∈ l := by
  rw [List.getD_eq_getElem?_getD, List.getElem?_eq_getElem h]
  exact List.getElem_mem h

/-- C7: with the tile list that exactly enumerates the grid's occupied cells,
canGameContinue is false iff the grid is completely full and no tile has a
clamped axis-neighbor that is empty or equal-valued; and it is true as soon
as any empty cell exists. -/
theorem C7_canContinue_iff (g : Grid) (cols : Nat) (tiles : List Tile)
    (htiles : tiles = gridTilesList g)
    (hrect : rectangularB g cols = true)
    (hr : 0 < g.length) (hc : 0 < cols) :
    (canGameContinue g tiles = false ↔ (isFullP g ∧ noNeighborMoveP g tiles)) ∧
      (∀ r c, r < g.length → c < cols → cellAt g r c = none →
        canGameContinue g tiles = true) := by
  subst htiles
  have hrectP : ∀ row ∈ g, row.length = cols := by
    intro row hrow
    exact beq_iff_eq.mp (List.all_eq_true.mp hrect row hrow)
  have hcols : (g.getD 0 []).length = cols :=
    hrectP _ (getD_mem_of_lt g [] 0 hr)
  have hcount := gridTilesList_count g cols hrectP
  have hnotfull_lt : ¬ isFullP g →
      (gridTilesList g).length < g.length * cols := by
    intro hnf
    rcases Nat.lt_or_ge (gridTilesList g).length (g.length * cols) with h | h
    · exact h
    · exact absurd (hcount.2.mp (le_antisymm hcount.1 h)) hnf
  have hpart2 : ∀ r c, r < g.length → c < cols → cellAt g r c = none →
      canGameContinue g (gridTilesList g) = true := by
    intro r c hrr hcc hcell
    have hrowmem : g.getD r [] ∈ g := getD_mem_of_lt g [] r hrr
    have hnotfull : ¬ isFullP g := by
      intro hfull
      have hlenr : (g.getD r []).length = cols := hrectP _ hrowmem
      have hcellmem : (g.getD r []).getD c none ∈ g.getD r [] :=
        getD_mem_of_lt _ none c (by omega)
      have := hfull _ hrowmem _ hcellmem
      rw [show (g.getD r []).getD c none = cellAt g r c from rfl, hcell] at this
      simp at this
    unfold canGameContinue
    dsimp only
    rw [hcols, if_pos (hnotfull_lt hnotfull)]
  refine ⟨?_, hpart2⟩
  by_cases hfull : isFullP g
  · have hlen : (gridTilesList g).length = g.length * cols := hcount.2.mpr hfull
    unfold canGameContinue
    dsimp only
    rw [hcols, if_neg (by omega)]
    constructor
    · intro hany
      refine ⟨hfull, ?_⟩
      intro t ht d hd
      have h1 := List.any_eq_false.mp hany t ht
      have h2 : dirs.any (fun d => neighborCheck g g.length cols t d) = false := by
        cases hx : dirs.any (fun d => neighborCheck g g.length cols t d)
        · rfl
        · exact absurd hx h1
      have h3 := List.any_eq_false.mp h2 d hd
      have h4 : neighborCheck g g.length cols t d = false := by
        cases hx : neighborCheck g g.length cols t d
        · rfl
        · exact absurd hx h3
      rw [hcols]
      exact (neighborCheck_false_iff g g.length cols t d).mp h4
    · rintro ⟨_, hnb⟩
      rw [List.any_eq_false]
      intro t ht
      rw [Bool.not_eq_true, List.any_eq_false]
      intro d hd
      rw [Bool.not_eq_true]
      rw [neighborCheck_false_iff]
      have := hnb t ht d hd
      rw [hcols] at this
      exact this
  · have hlt := hnotfull_lt hfull
    have htrue : canGameContinue g (gridTilesList g) = true := by
      unfold canGameContinue
      dsimp only
      rw [hcols, if_pos hlt]
    constructor
    · intro h
      rw [htrue] at h
      exact Bool.noConfusion h
    · rintro ⟨hf, _⟩
      exact absurd hf hfull

theorem C7_canContinue_iff_witness :
    (canGameContinue gStuck [tA, tB] = false ↔
        (isFullP gStuck ∧ noNeighborMoveP gStuck [tA, tB])) ∧
      (∀ r c, r < gStuck.length → c < 2 → cellAt gStuck r c = none →
        canGameContinue gStuck [tA, tB] = true) :=
  C7_canContinue_iff gStuck 2 [tA, tB] rfl (by decide) (by decide) (by decide)

/-! Grid update lemmas and move-engine invariants (claim C3). -/

theorem getD_set_self {α : Type} (l : List α) (i : Nat) (a d : α)
    (h : i < l.length) : (l.set i a).getD i d = a := by
  rw [List.getD_eq_getElem?_getD, List.getElem?_set_eq_of_lt a h]
  rfl

theorem getD_set_ne {α : Type} (l : List α) (i j : Nat) (a d : α)
    (h : i ≠ j) : (l.set i a).getD j d = l.getD j d := by
  rw [List.getD_eq_getElem?_getD, List.getElem?_set_ne h,
    ← List.getD_eq_getElem?_getD]

theorem cellAt_gridSet_self (g : Grid) (r c : Nat) (v : Cell)
    (hr : r < g.length) (hc : c < (g.getD r []).length) :
    cellAt (gridSet g r c v) r c = v := by
  unfold cellAt gridSet
  rw [getD_set_self _ _ _ _ hr, getD_set_self _ _ _ _ hc]

theorem cellAt_gridSet_ne (g : Grid) (r c r' c' : Nat) (v : Cell)
    (h : (r', c') ≠ (r, c)) :
    cellAt (gridSet g r c v) r' c' = cellAt g r' c' := by
  unfold cellAt gridSet
  by_cases hrr : r = r'
  · subst hrr
    have hcc : c ≠ c' := by
      intro e
      exact h (by rw [e])
    by_cases hlen : r < g.length
    · rw [getD_set_self _ _ _ _ hlen, getD_set_ne _ _ _ _ _ hcc]
    · rw [List.set_eq_of_length_le (by omega)]
  · rw [getD_set_ne _ _ _ _ _ hrr]

theorem gridSet_length (g : Grid) (r c : Nat) (v : Cell) :
    (gridSet g r c v).length = g.length := by
  unfold gridSet
  exact List.length_set ..

theorem gridSet_rowLength (g : Grid) (r c : Nat) (v : Cell) (i : Nat) :
    ((gridSet g r c v).getD i []).length = (g.getD i []).length := by
  unfold gridSet
  by_cases hri : r = i
  · subst hri
    by_cases hlen : r < g.length
    · rw [getD_set_self _ _ _ _ hlen, List.length_set]
    · rw [List.set_eq_of_length_le (by omega)]
  · rw [getD_set_ne _ _ _ _ _ hri]

/-- wellFormedP: every occupied cell holds a tile whose recorded position is
that cell. -/
def wellFormedP (g : Grid) : Prop :=
  ∀ r c t, cellAt g r c = some t → t.r = r ∧ t.c = c

/-- wellFormedB is the decidable check of wellFormedP over the grid's own
index ranges. -/
def wellFormedB (g : Grid) : Bool :=
  (List.range g.length).all (fun r =>
    (List.range ((g.getD r []).length)).all (fun c =>
      match cellAt g r c with
      | none => true
      | some t => t.r == r && t.c == c))

/-- noSharedPositions: tiles stored in two distinct cells never carry the
same recorded position. -/
def noSharedPositions (g : Grid) : Prop :=
  ∀ r1 c1 r2 c2 t1 t2, cellAt g r1 c1 = some t1 → cellAt g r2 c2 = some t2 →
    t1.r = t2.r → t1.c = t2.c → r1 = r2 ∧ c1 = c2

theorem cellAt_some_bounds (g : Grid) (r c : Nat) (t : Tile)
    (h : cellAt g r c = some t) : r < g.length ∧ c < (g.getD r []).length := by
  unfold cellAt at h
  constructor
  · by_contra hr
    rw [List.getD_eq_default g [] (by omega)] at h
    simp [List.getD] at h
  · by_contra hc
    rw [List.getD_eq_default _ none (by omega)] at h
    exact Option.noConfusion h

theorem wellFormedP_of_B (g : Grid) (h : wellFormedB g = true) :
    wellFormedP g := by
  intro r c t hcell
  have hb := cellAt_some_bounds g r c t hcell
  have h1 := List.all_eq_true.mp h r (List.mem_range.mpr hb.1)
  have h2 := List.all_eq_true.mp h1 c (List.mem_range.mpr hb.2)
  rw [hcell] at h2
  have h3 := Bool.and_eq_true_iff.mp h2
  exact ⟨beq_iff_eq.mp h3.1, beq_iff_eq.mp h3.2⟩

theorem noShared_of_wf (g : Grid) (h : wellFormedP g) : noSharedPositions g := by
  intro r1 c1 r2 c2 t1 t2 h1 h2 hr hc
  obtain ⟨e1r, e1c⟩ := h r1 c1 t1 h1
  obtain ⟨e2r, e2c⟩ := h r2 c2 t2 h2
  constructor
  · rw [← e1r, ← e2r, hr]
  · rw [← e1c, ← e2c, hc]

theorem stepPos_lt (rows cols : Nat) (dir : Vector) (p : Nat × Nat)
    (hr : 0 < rows) (hc : 0 < cols) :
    (stepPos rows cols dir p).1 < rows ∧ (stepPos rows cols dir p).2 < cols := by
  unfold stepPos clamp
  constructor
  · dsimp only
    omega
  · dsimp only
    omega

theorem slide_lt (g : Grid) (rows cols : Nat) (dir : Vector) (v : Nat)
    (hr : 0 < rows) (hc : 0 < cols) :
    ∀ fuel curr next, curr.1 < rows → curr.2 < cols → next.1 < rows →
      next.2 < cols →
      (slide g rows cols dir v fuel curr next).1 < rows ∧
        (slide g rows cols dir v fuel curr next).2 < cols := by
  intro fuel
  induction fuel with
  | zero =>
    intro curr next h1 h2 _ _
    exact ⟨h1, h2⟩
  | succ k ih =>
    intro curr next h1 h2 h3 h4
    by_cases he : next = curr
    · simp only [slide, if_pos he]
      exact ⟨h1, h2⟩
    · simp only [slide, if_neg he]
      cases hcell : cellAt g next.1 next.2 with
      | some t =>
        dsimp only
        by_cases hv : t.value = v ∧ t.canMerge = false
        · rw [if_pos hv]
          exact ⟨h3, h4⟩
        · rw [if_neg hv]
          exact ⟨h1, h2⟩
      | none =>
        exact ih next (stepPos rows cols dir next) h3 h4
          (stepPos_lt rows cols dir next hr hc).1
          (stepPos_lt rows cols dir next hr hc).2

theorem moveStep_inv (rows cols : Nat) (dir : Vector) (st : MoveState)
    (p : Nat × Nat)
    (hlen : st.grid.length = rows)
    (hrect : ∀ i, i < rows → (st.grid.getD i []).length = cols)
    (hwf : wellFormedP st.grid)
    (hp1 : p.1 < rows) (hp2 : p.2 < cols) :
    (moveStep rows cols dir st p).grid.length = rows ∧
      (∀ i, i < rows → ((moveStep rows cols dir st p).grid.getD i []).length = cols) ∧
      wellFormedP (moveStep rows cols dir st p).grid := by
  have hr0 : 0 < rows := by omega
  have hc0 : 0 < cols := by omega
  unfold moveStep
  cases hcell : cellAt st.grid p.1 p.2 with
  | none => exact ⟨hlen, hrect, hwf⟩
  | some tile =>
    dsimp only
    by_cases hne : slide st.grid rows cols dir tile.value (rows + cols) p
        (stepPos rows cols dir p) ≠ p
    · rw [if_pos hne]
      set dest := slide st.grid rows cols dir tile.value (rows + cols) p
        (stepPos rows cols dir p) with hdest
      have hd : dest.1 < rows ∧ dest.2 < cols := by
        rw [hdest]
        exact slide_lt st.grid rows cols dir tile.value (by omega) hc0
          (rows + cols) p (stepPos rows cols dir p) hp1 hp2
          (stepPos_lt rows cols dir p (by omega) hc0).1
          (stepPos_lt rows cols dir p (by omega) hc0).2
      set updated : Tile :=
        { tile with
          r := dest.1, c := dest.2,
          canMerge := match cellAt st.grid dest.1 dest.2 with
                      | some ct => tile.value == ct.value
                      | none => false,
          isNew := false, isMerging := false } with hupd
      set g2 : Grid := gridSet st.grid dest.1 dest.2 (some updated) with hg2
      have hg2len : g2.length = rows := by
        rw [hg2, gridSet_length, hlen]
      have hg2rect : ∀ i, i < rows → (g2.getD i []).length = cols := by
        intro i hi
        rw [hg2, gridSet_rowLength]
        exact hrect i hi
      refine ⟨?_, ?_, ?_⟩
      · rw [gridSet_length, hg2len]
      · intro i hi
        rw [gridSet_rowLength]
        exact hg2rect i hi
      · intro r c t hc3
        by_cases h3 : (r, c) = (p.1, p.2)
        · rw [show r = p.1 from congrArg Prod.fst h3,
            show c = p.2 from congrArg Prod.snd h3] at hc3
          rw [cellAt_gridSet_self g2 p.1 p.2 none (by omega)
            (by rw [hg2rect p.1 hp1]; omega)] at hc3
          exact Option.noConfusion hc3
        · rw [cellAt_gridSet_ne g2 p.1 p.2 r c none h3] at hc3
          by_cases h2 : (r, c) = (dest.1, dest.2)
          · rw [show r = dest.1 from congrArg Prod.fst h2,
              show c = dest.2 from congrArg Prod.snd h2] at hc3 ⊢
            rw [hg2, cellAt_gridSet_self st.grid dest.1 dest.2 (some updated)
              (by omega) (by rw [hrect dest.1 hd.1]; omega)] at hc3
            cases hc3
            exact ⟨rfl, rfl⟩
          · rw [hg2, cellAt_gridSet_ne st.grid dest.1 dest.2 r c
              (some updated) h2] at hc3
            exact hwf r c t hc3
    · rw [if_neg hne]
      cases cellAt st.grid
          (slide st.grid rows cols dir tile.value (rows + cols) p
            (stepPos rows cols dir p)).1
          (slide st.grid rows cols dir tile.value (rows + cols) p
            (stepPos rows cols dir p)).2 with
      | some ct => exact ⟨hlen, hrect, hwf⟩
      | none => exact ⟨hlen, hrect, hwf⟩

theorem foldl_moveStep_inv (rows cols : Nat) (dir : Vector)
    (l : List (Nat × Nat)) :
    ∀ st : MoveState,
      (∀ p ∈ l, p.1 < rows ∧ p.2 < cols) →
      st.grid.length = rows →
      (∀ i, i < rows → (st.grid.getD i []).length = cols) →
      wellFormedP st.grid →
      ((l.foldl (moveStep rows cols dir) st).grid.length = rows ∧
        (∀ i, i < rows →
          (((l.foldl (moveStep rows cols dir) st).grid.getD i []).length = cols)) ∧
        wellFormedP (l.foldl (moveStep rows cols dir) st).grid) := by
  induction l with
  | nil =>
    intro st _ h1 h2 h3
    exact ⟨h1, h2, h3⟩
  | cons p t ih =>
    intro st hmem h1 h2 h3
    have hp := hmem p (List.mem_cons_self p t)
    have hstep := moveStep_inv rows cols dir st p h1 h2 h3 hp.1 hp.2
    rw [List.foldl_cons]
    exact ih (moveStep rows cols dir st p)
      (fun q hq => hmem q (List.mem_cons_of_mem _ hq))
      hstep.1 hstep.2.1 hstep.2.2

/-- C3: on a well-formed rectangular grid, after moveInDirection the number
of tiles stored in the grid never exceeds rows * cols and no two occupied
cells hold tiles with the same recorded position. -/
theorem C3_move_invariants (g : Grid) (cols : Nat) (dir : Vector)
    (hrect : rectangularB g cols = true) (hwf : wellFormedB g = true)
    (hr : 0 < g.length) (hc : 0 < cols) :
    (gridTilesList (moveInDirection g dir).grid).length ≤ g.length * cols ∧
      noSharedPositions (moveInDirection g dir).grid := by
  have hrectP : ∀ row ∈ g, row.length = cols := fun row hrow =>
    beq_iff_eq.mp (List.all_eq_true.mp hrect row hrow)
  have hrectI : ∀ i, i < g.length → (g.getD i []).length = cols := by
    intro i hi
    exact hrectP _ (getD_mem_of_lt g [] i hi)
  have hcols : (g.getD 0 []).length = cols := hrectI 0 hr
  have hmv : moveInDirection g dir
      = (traversalList g.length ((g.getD 0 []).length) dir).foldl
          (moveStep g.length ((g.getD 0 []).length) dir) ⟨g, [], []⟩ := rfl
  have hfold := foldl_moveStep_inv g.length ((g.getD 0 []).length) dir
    (traversalList g.length ((g.getD 0 []).length) dir) ⟨g, [], []⟩
    (fun p hp => mem_traversal_bounds _ _ dir p hp) rfl
    (by
      intro i hi
      show (g.getD i []).length = (g.getD 0 []).length
      rw [hrectI i hi, hcols])
    (wellFormedP_of_B g hwf)
  rw [← hmv] at hfold
  have hgl : (moveInDirection g dir).grid.length = g.length := hfold.1
  have hmemrect : ∀ row ∈ (moveInDirection g dir).grid, row.length = cols := by
    intro row hrow
    rw [List.mem_iff_getElem] at hrow
    obtain ⟨i, hi, hrowi⟩ := hrow
    have hgetd : (moveInDirection g dir).grid.getD i [] = row := by
      rw [List.getD_eq_getElem?_getD, List.getElem?_eq_getElem hi, hrowi]
      rfl
    have := hfold.2.1 i (by omega)
    rw [hgetd, hcols] at this
    exact this
  constructor
  · have hcount := gridTilesList_count (moveInDirection g dir).grid cols hmemrect
    have h1 := hcount.1
    rw [hgl] at h1
    exact h1
  · exact noShared_of_wf _ hfold.2.2

theorem C3_move_invariants_witness :
    (gridTilesList (moveInDirection gStuck dirLeft).grid).length
        ≤ gStuck.length * 2 ∧
      noSharedPositions (moveInDirection gStuck dirLeft).grid :=
  C3_move_invariants gStuck 2 dirLeft (by decide) (by decide) (by decide)
    (by decide)

/-! Chain-merge prevention on the concrete row [2,2,2,2] (claim C1). -/

theorem mem_of_mem_listSwap {α : Type} (l : List α) (i j : Nat) (x : α)
    (h : x ∈ listSwap l i j) : x ∈ l := by
  unfold listSwap at h
  split at h
  · rename_i a b ha hb
    rcases List.mem_or_eq_of_mem_set h with h1 | h1
    · rcases List.mem_or_eq_of_mem_set h1 with h2 | h2
      · exact h2
      · rw [h2]
        exact List.get?_mem hb
    · rw [h1]
      exact List.get?_mem ha
  · exact h

theorem mem_of_mem_shuffleAux {α : Type} (js : Nat → Nat) (n : Nat) :
    ∀ (l : List α) (x : α), x ∈ shuffleAux js l n → x ∈ l := by
  induction n with
  | zero =>
    intro l x h
    exact h
  | succ k ih =>
    intro l x h
    rw [shuffleAux] at h
    exact mem_of_mem_listSwap _ _ _ _ (ih _ x h)

theorem mem_of_mem_shuffle {α : Type} (js : Nat → Nat) (arr : List α) (x : α)
    (h : x ∈ shuffle js arr) : x ∈ arr :=
  mem_of_mem_shuffleAux js (arr.length - 1) arr x h

/-- movedTile i c is the shape a value-2 tile takes after sliding onto an
equal tile in the [2,2,2,2] row: canMerge set, flags cleared. -/
def movedTile (i c : Nat) : Tile :=
  ⟨i, getId i 7, 0, c, false, false, true, 2⟩

/-- mTile i c is the same tile after the merge pass: value doubled to 4,
isMerging set. -/
def mTile (i c : Nat) : Tile :=
  ⟨i, getId i 7, 0, c, false, true, false, 4⟩

/-- gRow2222 is a 1x4 board holding four value-2 tiles. -/
def gRow2222 : Grid :=
  [[some ⟨0, getId 0 7, 0, 0, false, false, false, 2⟩,
    some ⟨1, getId 1 7, 0, 1, false, false, false, 2⟩,
    some ⟨2, getId 2 7, 0, 2, false, false, false, 2⟩,
    some ⟨3, getId 3 7, 0, 3, false, false, false, 2⟩]]

/-- gMergedRow is the board after moving gRow2222 left and running the merge
pass: two value-4 tiles pressed to the left edge. -/
def gMergedRow : Grid := [[some (mTile 1 0), some (mTile 3 1), none, none]]

theorem gMergedRow_values : ∀ r c u, cellAt gMergedRow r c = some u →
    u.value = 4 := by
  intro r c u h
  have hb := cellAt_some_bounds _ _ _ _ h
  have hr : r = 0 := by
    have := hb.1
    simp [gMergedRow] at this
    omega
  subst hr
  have hc : c < 4 := by
    have := hb.2
    simpa [gMergedRow] using this
  interval_cases c
  · cases h
    rfl
  · cases h
    rfl
  · exact Option.noConfusion h
  · exact Option.noConfusion h

/-- C1: a tile merges at most once per move: sliding the row [2,2,2,2]
toward the left edge and settling yields two value-4 tiles in the two edge
cells, and — for every possible spawner randomness — no cell of the settled
board holds a value-8 tile, so the two pairs never chain-merge into 8. -/
theorem C1_no_chain_merge (env : SpawnEnv) (s : Nat) :
    (∃ u, cellAt (mergeAndCreateNewTiles env
        (moveInDirection gRow2222 dirLeft).grid s).1.grid 0 0 = some u ∧
        u.value = 4) ∧
      (∃ u, cellAt (mergeAndCreateNewTiles env
          (moveInDirection gRow2222 dirLeft).grid s).1.grid 0 1 = some u ∧
          u.value = 4) ∧
      ∀ r c u, cellAt (mergeAndCreateNewTiles env
          (moveInDirection gRow2222 dirLeft).grid s).1.grid r c = some u →
        u.value ≠ 8 := by
  have hspawn : ∃ loc : Location, (loc = ⟨0, 2⟩ ∨ loc = ⟨0, 3⟩) ∧
      (createRandomTiles env [⟨0, 2⟩, ⟨0, 3⟩] 1 s).1
        = [(createNewTile env.now (env.high s) loc.r loc.c s).1] := by
    have hsl : (shuffle env.js [(⟨0, 2⟩ : Location), ⟨0, 3⟩]).length = 2 := by
      rw [shuffle_length]
      rfl
    cases hS : shuffle env.js [(⟨0, 2⟩ : Location), ⟨0, 3⟩] with
    | nil =>
      rw [hS] at hsl
      exact absurd hsl (by simp)
    | cons a rest =>
      have ha : a ∈ [(⟨0, 2⟩ : Location), ⟨0, 3⟩] :=
        mem_of_mem_shuffle env.js _ a (hS ▸ List.mem_cons_self a rest)
      refine ⟨a, by simpa using ha, ?_⟩
      show (createTilesAt env
        ((shuffle env.js [(⟨0, 2⟩ : Location), ⟨0, 3⟩]).take 1) s).1 = _
      rw [hS]
      rfl
  obtain ⟨loc, hloc, hsp⟩ := hspawn
  have hgrid : (mergeAndCreateNewTiles env
      (moveInDirection gRow2222 dirLeft).grid s).1.grid
      = placeTiles gMergedRow (createRandomTiles env [⟨0, 2⟩, ⟨0, 3⟩] 1 s).1 :=
    rfl
  rw [hsp] at hgrid
  have hgrid2 : (mergeAndCreateNewTiles env
      (moveInDirection gRow2222 dirLeft).grid s).1.grid
      = gridSet gMergedRow loc.r loc.c
          (some (createNewTile env.now (env.high s) loc.r loc.c s).1) := by
    rw [hgrid]
    rfl
  rcases hloc with rfl | rfl
  · dsimp only at hgrid2
    refine ⟨⟨mTile 1 0, ?_, rfl⟩, ⟨mTile 3 1, ?_, rfl⟩, ?_⟩
    · rw [hgrid2, cellAt_gridSet_ne _ _ _ _ _ _ (by decide)]
      rfl
    · rw [hgrid2, cellAt_gridSet_ne _ _ _ _ _ _ (by decide)]
      rfl
    · intro r c u h
      rw [hgrid2] at h
      by_cases hp : ((r, c) : Nat × Nat) = ((0 : Nat), (2 : Nat))
      · rw [show r = 0 from congrArg Prod.fst hp,
          show c = 2 from congrArg Prod.snd hp] at h
        rw [cellAt_gridSet_self _ _ _ _ (by decide) (by decide)] at h
        have hu := (Option.some.inj h).symm
        subst hu
        show (if env.high s then (4 : Nat) else 2) ≠ 8
        cases henv : env.high s
        · decide
        · decide
      · rw [cellAt_gridSet_ne _ _ _ _ _ _ hp] at h
        have := gMergedRow_values r c u h
        omega
  · dsimp only at hgrid2
    refine ⟨⟨mTile 1 0, ?_, rfl⟩, ⟨mTile 3 1, ?_, rfl⟩, ?_⟩
    · rw [hgrid2, cellAt_gridSet_ne _ _ _ _ _ _ (by decide)]
      rfl
    · rw [hgrid2, cellAt_gridSet_ne _ _ _ _ _ _ (by decide)]
      rfl
    · intro r c u h
      rw [hgrid2] at h
      by_cases hp : ((r, c) : Nat × Nat) = ((0 : Nat), (3 : Nat))
      · rw [show r = 0 from congrArg Prod.fst hp,
          show c = 3 from congrArg Prod.snd hp] at h
        rw [cellAt_gridSet_self _ _ _ _ (by decide) (by decide)] at h
        have hu := (Option.some.inj h).symm
        subst hu
        show (if env.high s then (4 : Nat) else 2) ≠ 8
        cases henv : env.high s
        · decide
        · decide
      · rw [cellAt_gridSet_ne _ _ _ _ _ _ hp] at h
        have := gMergedRow_values r c u h
        omega
